import Mathlib

/-!
# Verification of the `{packet, N}` framing protocol (`packetn.go`)

Shallow embedding of the length-prefixed framing protocol of the `link`
repository.  Each wire frame is a fixed-width length header (1, 2, 4 or 8
bytes, big- or little-endian) followed by that many payload bytes.

Modelling conventions:
* Bytes are `Nat` values `< 256`; byte slices are `List Nat`.
* Go `int` values that can carry configuration (`MaxPacketSize`) are `Int`;
  payload lengths come from `buffer.Len()` on a Go slice, hence are
  nonnegative and `< 2^63` (Go slice lengths fit a signed 64-bit `int`).
* The writer-side connection (`WConn`) records the bytes successfully
  written and a plan of per-`Write`-call outcomes (`none` = success,
  `some e` = the transport reports error code `e`).
* The reader-side connection (`RConn`) is the incoming byte stream plus the
  transport error, if any, that a `Read` reports once the stream runs out;
  `readFull` models `io.ReadFull` (all-or-error semantics).
* Go `panic` in a constructor is modelled as `Option.none`.
* Errors are `GoError`: the `PacketTooLargeError` sentinel, a transport
  error carrying the connection's error code, or `io.ErrUnexpectedEOF`
  from `io.ReadFull` hitting end-of-stream.
* The `BufferFactory` collaborator is not part of `packetn.go`'s framing
  logic (it is only stored and handed back) and no claim touches it, so it
  is omitted from the descriptor model.
-/

/-- Byte order of the packet header, `binary.BigEndian` / `binary.LittleEndian`. -/
inductive ByteOrder where
  | big : ByteOrder
  | little : ByteOrder
deriving DecidableEq, Repr

/-- Error values returned by the protocol layer. -/
inductive GoError where
  | packetTooLarge : GoError
  | transport (code : Nat) : GoError
  | unexpectedEOF : GoError
deriving DecidableEq, Repr

/-- Go `binary.ByteOrder.PutUint16`: the two bytes of `v` (already reduced mod 2^16). -/
def putUint16 : ByteOrder → Nat → List Nat
  | .big, v => [v / 2 ^ 8 % 2 ^ 8, v % 2 ^ 8]
  | .little, v => [v % 2 ^ 8, v / 2 ^ 8 % 2 ^ 8]

/-- Go `binary.ByteOrder.PutUint32`. -/
def putUint32 : ByteOrder → Nat → List Nat
  | .big, v => [v / 2 ^ 24 % 2 ^ 8, v / 2 ^ 16 % 2 ^ 8, v / 2 ^ 8 % 2 ^ 8, v % 2 ^ 8]
  | .little, v => [v % 2 ^ 8, v / 2 ^ 8 % 2 ^ 8, v / 2 ^ 16 % 2 ^ 8, v / 2 ^ 24 % 2 ^ 8]

/-- Go `binary.ByteOrder.PutUint64`. -/
def putUint64 : ByteOrder → Nat → List Nat
  | .big, v =>
    [v / 2 ^ 56 % 2 ^ 8, v / 2 ^ 48 % 2 ^ 8, v / 2 ^ 40 % 2 ^ 8, v / 2 ^ 32 % 2 ^ 8,
     v / 2 ^ 24 % 2 ^ 8, v / 2 ^ 16 % 2 ^ 8, v / 2 ^ 8 % 2 ^ 8, v % 2 ^ 8]
  | .little, v =>
    [v % 2 ^ 8, v / 2 ^ 8 % 2 ^ 8, v / 2 ^ 16 % 2 ^ 8, v / 2 ^ 24 % 2 ^ 8,
     v / 2 ^ 32 % 2 ^ 8, v / 2 ^ 40 % 2 ^ 8, v / 2 ^ 48 % 2 ^ 8, v / 2 ^ 56 % 2 ^ 8]

/-- Go `binary.ByteOrder.Uint16` on a 2-byte buffer. -/
def uint16 : ByteOrder → List Nat → Nat
  | .big, b => b.getD 0 0 * 2 ^ 8 + b.getD 1 0
  | .little, b => b.getD 1 0 * 2 ^ 8 + b.getD 0 0

/-- Go `binary.ByteOrder.Uint32` on a 4-byte buffer. -/
def uint32 : ByteOrder → List Nat → Nat
  | .big, b => b.getD 0 0 * 2 ^ 24 + b.getD 1 0 * 2 ^ 16 + b.getD 2 0 * 2 ^ 8 + b.getD 3 0
  | .little, b => b.getD 3 0 * 2 ^ 24 + b.getD 2 0 * 2 ^ 16 + b.getD 1 0 * 2 ^ 8 + b.getD 0 0

/-- Go `binary.ByteOrder.Uint64` on an 8-byte buffer. -/
def uint64 : ByteOrder → List Nat → Nat
  | .big, b =>
    b.getD 0 0 * 2 ^ 56 + b.getD 1 0 * 2 ^ 48 + b.getD 2 0 * 2 ^ 40 + b.getD 3 0 * 2 ^ 32 +
      b.getD 4 0 * 2 ^ 24 + b.getD 5 0 * 2 ^ 16 + b.getD 6 0 * 2 ^ 8 + b.getD 7 0
  | .little, b =>
    b.getD 7 0 * 2 ^ 56 + b.getD 6 0 * 2 ^ 48 + b.getD 5 0 * 2 ^ 40 + b.getD 4 0 * 2 ^ 32 +
      b.getD 3 0 * 2 ^ 24 + b.getD 2 0 * 2 ^ 16 + b.getD 1 0 * 2 ^ 8 + b.getD 0 0

/-- Reinterpret an unsigned 64-bit value as Go's signed `int`
(`int(uint64-value)` on a 64-bit platform). -/
def toInt64 (v : Nat) : Int :=
  if v < 2 ^ 63 then (v : Int) else (v : Int) - 2 ^ 64

/-- The `w.encodeHead` closure installed by `NewPNWriter`: headerWidth `n`,
byte order `bo`, payload length `size` (a Go slice length, so nonnegative).
Width 1 writes `byte(size)`; widths 2/4/8 convert `size` to the unsigned
type of that width and use the byte-order codec.  The `_` case corresponds
to the `panic("unsupported packet head size")` in `NewPNWriter`, which makes
it unreachable for any writer that exists. -/
def encodeHead (n : Nat) (bo : ByteOrder) (size : Nat) : List Nat :=
  match n with
  | 1 => [size % 2 ^ 8]
  | 2 => putUint16 bo (size % 2 ^ 16)
  | 4 => putUint32 bo (size % 2 ^ 32)
  | 8 => putUint64 bo (size % 2 ^ 64)
  | _ => []

/-- The `r.decodeHead` closure installed by `NewPNReader`, applied to the
header bytes `b`.  Each branch converts the unsigned decoded value to Go's
`int`: widths 1/2/4 always fit, width 8 reinterprets the `uint64` as a
signed 64-bit value.  The `_` case corresponds to the `panic` in
`NewPNReader` and is unreachable for any reader that exists. -/
def decodeHead (n : Nat) (bo : ByteOrder) (b : List Nat) : Int :=
  match n with
  | 1 => (b.getD 0 0 : Int)
  | 2 => (uint16 bo b : Int)
  | 4 => (uint32 bo b : Int)
  | 8 => toInt64 (uint64 bo b)
  | _ => 0

/-- The `PNProtocol` descriptor: configuration stored by `PacketN`. -/
structure PNProtocol where
  MaxPacketSize : Int
  n : Nat
  bo : ByteOrder
deriving DecidableEq, Repr

/-- Constructor `PacketN(n, bo, bf)`: builds the descriptor.  The Go constructor is a
plain struct literal: it performs no validation of `n` and cannot fail
(`MaxPacketSize` starts at its zero value). -/
def PacketN (n : Nat) (bo : ByteOrder) : PNProtocol :=
  { MaxPacketSize := 0, n := n, bo := bo }

/-- The `PNWriter` state: `MaxPacketSize` plus the configuration captured by
the `head` scratch buffer and the `encodeHead` closure (headerWidth and
byte order). -/
structure PNWriter where
  MaxPacketSize : Int
  n : Nat
  bo : ByteOrder
deriving DecidableEq, Repr

/-- The `PNReader` state, same shape as the writer. -/
structure PNReader where
  MaxPacketSize : Int
  n : Nat
  bo : ByteOrder
deriving DecidableEq, Repr

/-- Constructor `NewPNWriter(n, byteOrder)`: `none` models the
`panic("unsupported packet head size")` taken for any width outside
{1,2,4,8}. -/
def NewPNWriter (n : Nat) (bo : ByteOrder) : Option PNWriter :=
  if n = 1 ∨ n = 2 ∨ n = 4 ∨ n = 8 then some { MaxPacketSize := 0, n := n, bo := bo }
  else none

/-- Constructor `NewPNReader(n, byteOrder)`: `none` models the panic for an unsupported
width. -/
def NewPNReader (n : Nat) (bo : ByteOrder) : Option PNReader :=
  if n = 1 ∨ n = 2 ∨ n = 4 ∨ n = 8 then some { MaxPacketSize := 0, n := n, bo := bo }
  else none

/-- Method `PNProtocol.NewWriter`: constructs the writer, then copies the
descriptor's `MaxPacketSize` onto it. -/
def NewWriter (p : PNProtocol) : Option PNWriter :=
  (NewPNWriter p.n p.bo).map fun w => { w with MaxPacketSize := p.MaxPacketSize }

/-- Method `PNProtocol.NewReader`: likewise for the reader. -/
def NewReader (p : PNProtocol) : Option PNReader :=
  (NewPNReader p.n p.bo).map fun r => { r with MaxPacketSize := p.MaxPacketSize }

/-- Writer-side connection: `written` is every byte the connection has
accepted so far; `plan` prescribes the outcome of successive `Write` calls
(`none` = full write succeeds, `some e` = the call fails with transport
error code `e` and, since the claims only need the all-or-nothing case,
accepts no bytes).  An exhausted plan means every further write succeeds. -/
structure WConn where
  plan : List (Option Nat)
  written : List Nat
deriving DecidableEq, Repr

/-- One `conn.Write(bs)` call. -/
def connWrite (c : WConn) (bs : List Nat) : WConn × Option GoError :=
  match c.plan with
  | [] => ({ plan := [], written := c.written ++ bs }, none)
  | none :: rest => ({ plan := rest, written := c.written ++ bs }, none)
  | some e :: rest => ({ plan := rest, written := c.written }, some (.transport e))

/-- Method `PNWriter.WritePacket(conn, buffer)`.  `buffer` is the outgoing
payload's byte view; `buffer.Len()` is its length.  Mirrors the Go control
flow: size-limit check, encode header, write header, stop on zero size,
write payload. -/
def WritePacket (w : PNWriter) (conn : WConn) (buffer : List Nat) :
    WConn × Option GoError :=
  let size := buffer.length
  if w.MaxPacketSize > 0 ∧ (size : Int) > w.MaxPacketSize then
    (conn, some .packetTooLarge)
  else
    match connWrite conn (encodeHead w.n w.bo size) with
    | (c, some e) => (c, some e)
    | (c, none) =>
      if size = 0 then (c, none)
      else
        match connWrite c buffer with
        | (c2, some e) => (c2, some e)
        | (c2, none) => (c2, none)

/-- Reader-side connection: `data` is the incoming byte stream; `errAfter`
is the transport error code, if any, the connection reports once `data` is
exhausted (with `none`, exhaustion is end-of-stream). -/
structure RConn where
  data : List Nat
  errAfter : Option Nat
deriving DecidableEq, Repr

/-- Go `io.ReadFull(conn, buf)` for a `k`-byte buffer: succeeds only with
exactly `k` bytes; on a short stream it drains the data and returns the
transport's error (or `io.ErrUnexpectedEOF` at a plain end-of-stream). -/
def readFull (c : RConn) (k : Nat) : RConn × Except GoError (List Nat) :=
  if k ≤ c.data.length then
    ({ data := c.data.drop k, errAfter := c.errAfter }, .ok (c.data.take k))
  else
    ({ data := [], errAfter := c.errAfter },
     .error (match c.errAfter with
       | some e => .transport e
       | none => .unexpectedEOF))

/-- Result of one `ReadPacket` call: the advanced connection, the incoming
buffer's final contents, the size passed to `buffer.Prepare` (`none` when
`Prepare` was never called), and the returned error. -/
structure ReadOutcome where
  conn : RConn
  buf : List Nat
  prepared : Option Int
  err : Option GoError
deriving DecidableEq, Repr

/-- Method `PNReader.ReadPacket(conn, buffer)`.  `buffer` is the caller-supplied
incoming buffer's current contents.  Mirrors the Go control flow: read the
header in full, decode, succeed at size 0, size-limit check, `Prepare`,
read the payload in full.  On a failed payload read the buffer holds
whatever `Prepare` sized and `io.ReadFull` partially filled (remaining
bytes zero). -/
def ReadPacket (r : PNReader) (conn : RConn) (buffer : List Nat) : ReadOutcome :=
  match readFull conn r.n with
  | (c, .error e) => { conn := c, buf := buffer, prepared := none, err := some e }
  | (c, .ok head) =>
    let size := decodeHead r.n r.bo head
    if size = 0 then { conn := c, buf := buffer, prepared := none, err := none }
    else if r.MaxPacketSize > 0 ∧ size > r.MaxPacketSize then
      { conn := c, buf := buffer, prepared := none, err := some .packetTooLarge }
    else
      match readFull c size.toNat with
      | (c2, .error e) =>
        { conn := c2,
          buf := c.data.take size.toNat ++ List.replicate (size.toNat - c.data.length) 0,
          prepared := some size, err := some e }
      | (c2, .ok bs) => { conn := c2, buf := bs, prepared := some size, err := none }

/-! ## Helper lemmas about the header codec and connection model -/

/-- For every supported width the encoded header has exactly `n` bytes. -/
theorem encodeHead_length (n : Nat) (hn : n = 1 ∨ n = 2 ∨ n = 4 ∨ n = 8)
    (bo : ByteOrder) (v : Nat) : (encodeHead n bo v).length = n := by
  rcases hn with rfl | rfl | rfl | rfl <;> cases bo <;> rfl

theorem uint16_putUint16 (bo : ByteOrder) (v : Nat) (h : v < 2 ^ 16) :
    uint16 bo (putUint16 bo v) = v := by
  cases bo <;> simp [uint16, putUint16] <;> omega

theorem uint32_putUint32 (bo : ByteOrder) (v : Nat) (h : v < 2 ^ 32) :
    uint32 bo (putUint32 bo v) = v := by
  cases bo <;> simp [uint32, putUint32] <;> omega

theorem uint64_putUint64 (bo : ByteOrder) (v : Nat) (h : v < 2 ^ 64) :
    uint64 bo (putUint64 bo v) = v := by
  cases bo <;> simp [uint64, putUint64] <;> omega

/-- Decoding an encoded header recovers the length, provided it fits the
width and fits Go's signed `int` (automatic for widths 1/2/4). -/
theorem decodeHead_encodeHead (n : Nat) (hn : n = 1 ∨ n = 2 ∨ n = 4 ∨ n = 8)
    (bo : ByteOrder) (v : Nat) (hv : v < 2 ^ (8 * n)) (h63 : v < 2 ^ 63) :
    decodeHead n bo (encodeHead n bo v) = v := by
  rcases hn with rfl | rfl | rfl | rfl
  · norm_num at hv
    simp [decodeHead, encodeHead, Nat.mod_eq_of_lt hv]
  · norm_num at hv
    simp [decodeHead, encodeHead, Nat.mod_eq_of_lt hv,
      uint16_putUint16 bo v (by omega)]
  · norm_num at hv
    simp [decodeHead, encodeHead, Nat.mod_eq_of_lt hv,
      uint32_putUint32 bo v (by omega)]
  · norm_num at hv
    simp only [decodeHead, encodeHead]
    rw [Nat.mod_eq_of_lt (by omega), uint64_putUint64 bo v (by omega),
      toInt64, if_pos (by omega : v < 2 ^ 63)]

/-- A successful `Write` appends exactly its argument to the stream. -/
theorem connWrite_ok_written (c : WConn) (bs : List Nat)
    (h : (connWrite c bs).2 = none) :
    (connWrite c bs).1.written = c.written ++ bs := by
  cases hc : c.plan with
  | nil => simp [connWrite, hc]
  | cons o rest =>
    cases o with
    | none => simp [connWrite, hc]
    | some e => simp [connWrite, hc] at h

/-- On a fresh, healthy connection a within-limit `WritePacket` succeeds and
emits exactly header-then-payload. -/
theorem WritePacket_ok (w : PNWriter) (payload : List Nat)
    (hM : ¬(w.MaxPacketSize > 0 ∧ (payload.length : Int) > w.MaxPacketSize)) :
    WritePacket w { plan := [], written := [] } payload =
      ({ plan := [], written := encodeHead w.n w.bo payload.length ++ payload }, none) := by
  unfold WritePacket
  rw [if_neg hM]
  by_cases h0 : payload.length = 0
  · have hp : payload = [] := List.length_eq_zero.mp h0
    subst hp
    simp [connWrite]
  · simp only [connWrite, List.nil_append]
    rw [if_neg h0]

/-- Reading a well-formed frame (header matching a payload that fits the
width and the limit) consumes the whole frame and fills the buffer with the
payload; a zero-length frame leaves the buffer alone. -/
theorem ReadPacket_ok (r : PNReader) (hn : r.n = 1 ∨ r.n = 2 ∨ r.n = 4 ∨ r.n = 8)
    (payload buffer : List Nat)
    (hL : payload.length < 2 ^ (8 * r.n)) (h63 : payload.length < 2 ^ 63)
    (hM : ¬(r.MaxPacketSize > 0 ∧ (payload.length : Int) > r.MaxPacketSize)) :
    ReadPacket r { data := encodeHead r.n r.bo payload.length ++ payload, errAfter := none }
        buffer =
      { conn := { data := [], errAfter := none },
        buf := if payload.length = 0 then buffer else payload,
        prepared := if payload.length = 0 then none else some (payload.length : Int),
        err := none } := by
  have hhl : (encodeHead r.n r.bo payload.length).length = r.n :=
    encodeHead_length r.n hn r.bo payload.length
  have hde : decodeHead r.n r.bo (encodeHead r.n r.bo payload.length) = payload.length :=
    decodeHead_encodeHead r.n hn r.bo payload.length hL h63
  unfold ReadPacket
  rw [show readFull
        ⟨encodeHead r.n r.bo payload.length ++ payload, none⟩ r.n =
      (⟨payload, none⟩, .ok (encodeHead r.n r.bo payload.length)) from by
    unfold readFull
    rw [if_pos (by simp [hhl])]
    rw [List.take_left' hhl, List.drop_left' hhl]]
  simp only [hde]
  by_cases h0 : payload.length = 0
  · have hp : payload = [] := List.length_eq_zero.mp h0
    subst hp
    simp
  · rw [if_neg (by exact_mod_cast h0), if_neg hM]
    rw [show readFull ⟨payload, none⟩ ((payload.length : Int)).toNat =
          (⟨[], none⟩, .ok payload) from by
      unfold readFull
      simp]
    simp [h0]

/-- Claim C1: for every header width in {1,2,4,8}, every byte order, and every
payload length `L` with `L < 2^(8w)` (and `L < 2^63`, the bound Go's `int`
imposes on every slice length), writing the payload and reading the
resulting stream back with the same configuration succeeds and produces a
buffer holding exactly the original payload bytes. -/
theorem writePacket_readPacket_roundTrip (n : Nat)
    (hn : n = 1 ∨ n = 2 ∨ n = 4 ∨ n = 8) (bo : ByteOrder) (M : Int)
    (payload : List Nat) (hL : payload.length < 2 ^ (8 * n))
    (h63 : payload.length < 2 ^ 63)
    (hM : 0 < M → (payload.length : Int) ≤ M) :
    (WritePacket ⟨M, n, bo⟩ { plan := [], written := [] } payload).2 = none ∧
    (ReadPacket ⟨M, n, bo⟩
      { data := (WritePacket ⟨M, n, bo⟩ { plan := [], written := [] } payload).1.written,
        errAfter := none } []).err = none ∧
    (ReadPacket ⟨M, n, bo⟩
      { data := (WritePacket ⟨M, n, bo⟩ { plan := [], written := [] } payload).1.written,
        errAfter := none } []).buf = payload := by
  have hM' : ¬(M > 0 ∧ (payload.length : Int) > M) := by
    rintro ⟨h1, h2⟩
    exact absurd (hM h1) (not_le.mpr h2)
  have hw := WritePacket_ok ⟨M, n, bo⟩ payload hM'
  have hr := ReadPacket_ok ⟨M, n, bo⟩ hn payload [] hL h63 hM'
  simp only [hw]
  simp only [hr]
  refine ⟨trivial, trivial, ?_⟩
  by_cases h0 : payload.length = 0
  · simp [h0, List.length_eq_zero.mp h0]
  · simp [h0]

/-- Claim C1: witness: width 2, big-endian, no size limit, payload "hello". -/
theorem writePacket_readPacket_roundTrip_witness :
    (WritePacket ⟨0, 2, ByteOrder.big⟩ { plan := [], written := [] }
      [104, 101, 108, 108, 111]).2 = none ∧
    (ReadPacket ⟨0, 2, ByteOrder.big⟩
      { data := (WritePacket ⟨0, 2, ByteOrder.big⟩ { plan := [], written := [] }
          [104, 101, 108, 108, 111]).1.written,
        errAfter := none } []).err = none ∧
    (ReadPacket ⟨0, 2, ByteOrder.big⟩
      { data := (WritePacket ⟨0, 2, ByteOrder.big⟩ { plan := [], written := [] }
          [104, 101, 108, 108, 111]).1.written,
        errAfter := none } []).buf = [104, 101, 108, 108, 111] :=
  writePacket_readPacket_roundTrip 2 (Or.inr (Or.inl rfl)) ByteOrder.big 0
    [104, 101, 108, 108, 111] (by decide) (by decide) (by decide)

/-- Claim C2: counterexample: constructing the protocol descriptor with the
unsupported width 3 does not fail: `PacketN` is a plain struct literal and
returns a descriptor carrying `n = 3`.  The rejection (the Go `panic`,
modelled as `none`) only happens later, when `NewWriter` builds the writer. -/
theorem packetN_invalid_width_not_rejected :
    PacketN 3 ByteOrder.big = { MaxPacketSize := 0, n := 3, bo := ByteOrder.big } ∧
    NewWriter (PacketN 3 ByteOrder.big) = none := by
  constructor
  · rfl
  · decide

/-- Claim C2: (amended): `PacketN` stores any header width unvalidated and never
fails; an invalid width is rejected (panic) exactly when a writer or reader
is constructed from the descriptor — before, and hence never at, any
`WritePacket`/`ReadPacket` call. -/
theorem invalid_width_rejected_at_writer_construction (n : Nat) (bo : ByteOrder) :
    (PacketN n bo).n = n ∧
    ((NewPNWriter n bo).isSome ↔ (n = 1 ∨ n = 2 ∨ n = 4 ∨ n = 8)) ∧
    ((NewPNReader n bo).isSome ↔ (n = 1 ∨ n = 2 ∨ n = 4 ∨ n = 8)) ∧
    ((NewWriter (PacketN n bo)).isSome ↔ (n = 1 ∨ n = 2 ∨ n = 4 ∨ n = 8)) ∧
    ((NewReader (PacketN n bo)).isSome ↔ (n = 1 ∨ n = 2 ∨ n = 4 ∨ n = 8)) := by
  refine ⟨rfl, ?_, ?_, ?_, ?_⟩ <;>
    simp [NewPNWriter, NewPNReader, NewWriter, NewReader, PacketN]

/-- Claim C3: with a positive limit `M`, a frame whose decoded length exceeds
`M` makes `ReadPacket` return the `PacketTooLargeError` sentinel having
consumed exactly the `headerWidth` header bytes; the payload stays on the
stream, the buffer is untouched and `Prepare` is never called. -/
theorem readPacket_tooLarge (n : Nat) (hn : n = 1 ∨ n = 2 ∨ n = 4 ∨ n = 8)
    (bo : ByteOrder) (M : Int) (hM : 0 < M) (conn : RConn) (buffer : List Nat)
    (hhead : n ≤ conn.data.length)
    (hL : M < decodeHead n bo (conn.data.take n)) :
    ReadPacket ⟨M, n, bo⟩ conn buffer =
      { conn := { data := conn.data.drop n, errAfter := conn.errAfter },
        buf := buffer, prepared := none, err := some .packetTooLarge } := by
  have hz : ¬decodeHead n bo (conn.data.take n) = 0 := by omega
  unfold ReadPacket
  rw [show readFull conn n =
      ({ data := conn.data.drop n, errAfter := conn.errAfter },
        Except.ok (conn.data.take n)) from by
    unfold readFull
    rw [if_pos hhead]]
  simp only [if_neg hz, if_pos (show M > 0 ∧ decodeHead n bo (conn.data.take n) > M from
    ⟨hM, hL⟩)]

/-- Claim C3: witness: width 2 big-endian, limit 4, incoming frame of decoded
length 5. -/
theorem readPacket_tooLarge_witness :
    ReadPacket ⟨4, 2, ByteOrder.big⟩ { data := [0, 5, 1, 2, 3, 4, 5], errAfter := none } [9] =
      { conn := { data := [1, 2, 3, 4, 5], errAfter := none },
        buf := [9], prepared := none, err := some .packetTooLarge } := by
  have h := readPacket_tooLarge 2 (Or.inr (Or.inl rfl)) ByteOrder.big 4 (by decide)
    { data := [0, 5, 1, 2, 3, 4, 5], errAfter := none } [9] (by decide) (by decide)
  simpa using h

/-- Claim C4: with a positive limit `M`, writing a payload longer than `M`
returns the `PacketTooLargeError` sentinel and leaves the connection
untouched — zero bytes are written. -/
theorem writePacket_tooLarge (n : Nat) (hn : n = 1 ∨ n = 2 ∨ n = 4 ∨ n = 8)
    (bo : ByteOrder) (M : Int) (hM : 0 < M) (conn : WConn) (payload : List Nat)
    (hL : M < (payload.length : Int)) :
    WritePacket ⟨M, n, bo⟩ conn payload = (conn, some .packetTooLarge) := by
  unfold WritePacket
  rw [if_pos ⟨hM, hL⟩]

/-- Claim C4: witness: limit 4, payload of 5 bytes, nothing reaches the wire. -/
theorem writePacket_tooLarge_witness :
    WritePacket ⟨4, 2, ByteOrder.big⟩ { plan := [], written := [] } [1, 2, 3, 4, 5] =
      ({ plan := [], written := [] }, some .packetTooLarge) :=
  writePacket_tooLarge 2 (Or.inr (Or.inl rfl)) ByteOrder.big 4 (by decide)
    { plan := [], written := [] } [1, 2, 3, 4, 5] (by decide)

/-- Claim C5: width 2, big-endian, no limit: writing "hello" emits exactly
`00 05 68 65 6C 6C 6F`, and a same-configured reader of that stream yields
exactly the 5 payload bytes. -/
theorem concrete_hello_frame :
    WritePacket ⟨0, 2, ByteOrder.big⟩ { plan := [], written := [] }
        [0x68, 0x65, 0x6C, 0x6C, 0x6F] =
      ({ plan := [], written := [0x00, 0x05, 0x68, 0x65, 0x6C, 0x6C, 0x6F] }, none) ∧
    ReadPacket ⟨0, 2, ByteOrder.big⟩
        { data := [0x00, 0x05, 0x68, 0x65, 0x6C, 0x6C, 0x6F], errAfter := none } [] =
      { conn := { data := [], errAfter := none },
        buf := [0x68, 0x65, 0x6C, 0x6C, 0x6F], prepared := some 5, err := none } := by
  decide

/-- Claim C6: a zero-length payload never trips the size limit; when the header
write succeeds, `WritePacket` returns success having sent exactly the
`headerWidth` header bytes and nothing else. -/
theorem writePacket_zeroLength (n : Nat) (hn : n = 1 ∨ n = 2 ∨ n = 4 ∨ n = 8)
    (bo : ByteOrder) (M : Int) (conn : WConn)
    (hok : (connWrite conn (encodeHead n bo 0)).2 = none) :
    WritePacket ⟨M, n, bo⟩ conn [] = ((connWrite conn (encodeHead n bo 0)).1, none) ∧
    (connWrite conn (encodeHead n bo 0)).1.written = conn.written ++ encodeHead n bo 0 ∧
    (encodeHead n bo 0).length = n := by
  refine ⟨?_, connWrite_ok_written conn _ hok, encodeHead_length n hn bo 0⟩
  unfold WritePacket
  rw [if_neg (by rintro ⟨h1, h2⟩; simp at h1 h2; omega)]
  simp only [List.length_nil]
  rcases hcw : connWrite conn (encodeHead n bo 0) with ⟨c, e⟩
  rw [hcw] at hok
  subst hok
  simp

/-- Claim C6: witness: width 4, little-endian, limit 9, healthy connection. -/
theorem writePacket_zeroLength_witness :
    WritePacket ⟨9, 4, ByteOrder.little⟩ { plan := [], written := [] } [] =
      ((connWrite { plan := [], written := [] } (encodeHead 4 ByteOrder.little 0)).1, none) ∧
    (connWrite { plan := [], written := [] }
      (encodeHead 4 ByteOrder.little 0)).1.written =
      ({ plan := [], written := [] } : WConn).written ++ encodeHead 4 ByteOrder.little 0 ∧
    (encodeHead 4 ByteOrder.little 0).length = 4 :=
  writePacket_zeroLength 4 (Or.inr (Or.inr (Or.inl rfl))) ByteOrder.little 9
    { plan := [], written := [] } (by decide)

/-- Claim C7: when the decoded header length is 0, `ReadPacket` succeeds right
after the header: the stream loses exactly the header bytes, the buffer is
returned untouched and `Prepare` is never called. -/
theorem readPacket_zeroLength (n : Nat) (hn : n = 1 ∨ n = 2 ∨ n = 4 ∨ n = 8)
    (bo : ByteOrder) (M : Int) (conn : RConn) (buffer : List Nat)
    (hhead : n ≤ conn.data.length)
    (hz : decodeHead n bo (conn.data.take n) = 0) :
    ReadPacket ⟨M, n, bo⟩ conn buffer =
      { conn := { data := conn.data.drop n, errAfter := conn.errAfter },
        buf := buffer, prepared := none, err := none } := by
  unfold ReadPacket
  rw [show readFull conn n =
      ({ data := conn.data.drop n, errAfter := conn.errAfter },
        Except.ok (conn.data.take n)) from by
    unfold readFull
    rw [if_pos hhead]]
  simp [hz]

/-- Claim C7: witness: width 2, big-endian, zero header on the stream, dirty
caller buffer `[7, 7]` surviving untouched. -/
theorem readPacket_zeroLength_witness :
    ReadPacket ⟨0, 2, ByteOrder.big⟩ { data := [0, 0, 9, 9], errAfter := none } [7, 7] =
      { conn := { data := [9, 9], errAfter := none },
        buf := [7, 7], prepared := none, err := none } := by
  have h := readPacket_zeroLength 2 (Or.inr (Or.inl rfl)) ByteOrder.big 0
    { data := [0, 0, 9, 9], errAfter := none } [7, 7] (by decide) (by decide)
  simpa using h

/-- Claim C8: transport failures pass through unmodified, with no retry.  The
four conjuncts cover the four I/O sites: header write, payload write,
header read, payload read.  In each case the error value the connection
produced is exactly the value `WritePacket`/`ReadPacket` returns, and the
connection advances by exactly the one failed call. -/
theorem transportError_propagated (n : Nat) (hn : n = 1 ∨ n = 2 ∨ n = 4 ∨ n = 8)
    (bo : ByteOrder) (M : Int) (e : Nat) :
    (∀ (conn : WConn) (payload : List Nat),
      ¬(M > 0 ∧ (payload.length : Int) > M) →
      (connWrite conn (encodeHead n bo payload.length)).2 = some (.transport e) →
      WritePacket ⟨M, n, bo⟩ conn payload =
        ((connWrite conn (encodeHead n bo payload.length)).1, some (.transport e))) ∧
    (∀ (conn : WConn) (payload : List Nat),
      ¬(M > 0 ∧ (payload.length : Int) > M) →
      payload.length ≠ 0 →
      (connWrite conn (encodeHead n bo payload.length)).2 = none →
      (connWrite (connWrite conn (encodeHead n bo payload.length)).1 payload).2 =
        some (.transport e) →
      WritePacket ⟨M, n, bo⟩ conn payload =
        ((connWrite (connWrite conn (encodeHead n bo payload.length)).1 payload).1,
          some (.transport e))) ∧
    (∀ (conn : RConn) (buffer : List Nat),
      (readFull conn n).2 = .error (.transport e) →
      (ReadPacket ⟨M, n, bo⟩ conn buffer).err = some (.transport e)) ∧
    (∀ (conn : RConn) (buffer : List Nat),
      n ≤ conn.data.length →
      decodeHead n bo (conn.data.take n) ≠ 0 →
      ¬(M > 0 ∧ decodeHead n bo (conn.data.take n) > M) →
      (readFull { data := conn.data.drop n, errAfter := conn.errAfter }
        (decodeHead n bo (conn.data.take n)).toNat).2 = .error (.transport e) →
      (ReadPacket ⟨M, n, bo⟩ conn buffer).err = some (.transport e)) := by
  refine ⟨?_, ?_, ?_, ?_⟩
  · intro conn payload hMx hcw
    unfold WritePacket
    rw [if_neg hMx]
    rcases h : connWrite conn (encodeHead n bo payload.length) with ⟨c, e'⟩
    rw [h] at hcw
    simp only at hcw
    subst hcw
    rfl
  · intro conn payload hMx h0 hcw1 hcw2
    unfold WritePacket
    rw [if_neg hMx]
    rcases h : connWrite conn (encodeHead n bo payload.length) with ⟨c, e'⟩
    rw [h] at hcw1 hcw2
    simp only at hcw1 hcw2
    subst hcw1
    dsimp only
    rw [if_neg h0]
    rcases h2 : connWrite c payload with ⟨c2, e''⟩
    rw [h2] at hcw2
    simp only at hcw2
    subst hcw2
    rfl
  · intro conn buffer hrf
    unfold ReadPacket
    rcases h : readFull conn n with ⟨c, res⟩
    rw [h] at hrf
    simp only at hrf
    subst hrf
    rfl
  · intro conn buffer hhead hnz hsize hrf
    unfold ReadPacket
    rw [show readFull conn n =
        ({ data := conn.data.drop n, errAfter := conn.errAfter },
          Except.ok (conn.data.take n)) from by
      unfold readFull
      rw [if_pos hhead]]
    simp only [if_neg hnz, if_neg hsize]
    rcases h2 : readFull { data := conn.data.drop n, errAfter := conn.errAfter }
        (decodeHead n bo (conn.data.take n)).toNat with ⟨c2, res⟩
    rw [h2] at hrf
    simp only at hrf
    subst hrf
    rfl

/-- Claim C8: witness: width 2 big-endian, error code 7 at each of the four I/O
sites in turn. -/
theorem transportError_propagated_witness :
    WritePacket ⟨0, 2, ByteOrder.big⟩ { plan := [some 7], written := [] } [1, 2, 3] =
      ((connWrite { plan := [some 7], written := [] }
        (encodeHead 2 ByteOrder.big 3)).1, some (.transport 7)) ∧
    WritePacket ⟨0, 2, ByteOrder.big⟩ { plan := [none, some 7], written := [] } [1, 2, 3] =
      ((connWrite (connWrite { plan := [none, some 7], written := [] }
        (encodeHead 2 ByteOrder.big 3)).1 [1, 2, 3]).1, some (.transport 7)) ∧
    (ReadPacket ⟨0, 2, ByteOrder.big⟩ { data := [0], errAfter := some 7 } []).err =
      some (.transport 7) ∧
    (ReadPacket ⟨0, 2, ByteOrder.big⟩ { data := [0, 3, 1], errAfter := some 7 } []).err =
      some (.transport 7) := by
  obtain ⟨h1, h2, h3, h4⟩ := transportError_propagated 2 (Or.inr (Or.inl rfl))
    ByteOrder.big 0 7
  exact ⟨h1 { plan := [some 7], written := [] } [1, 2, 3] (by decide) (by decide),
    h2 { plan := [none, some 7], written := [] } [1, 2, 3] (by decide) (by decide)
      (by decide) (by decide),
    h3 { data := [0], errAfter := some 7 } [] (by rfl),
    h4 { data := [0, 3, 1], errAfter := some 7 } [] (by decide) (by decide) (by decide)
      (by rfl)⟩

/-- For a supported width the header encoder only depends on the length
modulo the range of the width (`uintN(size)` truncates). -/
theorem encodeHead_mod (n : Nat) (hn : n = 1 ∨ n = 2 ∨ n = 4 ∨ n = 8)
    (bo : ByteOrder) (v : Nat) :
    encodeHead n bo (v % 2 ^ (8 * n)) = encodeHead n bo v := by
  rcases hn with rfl | rfl | rfl | rfl <;> cases bo <;>
    simp only [encodeHead, putUint16, putUint32, putUint64, List.cons.injEq, and_true] <;>
    norm_num <;> omega

/-- Claim C9: with no size limit, a payload whose length overflows the header
width (possible for widths 1, 2 and 4) is not rejected: `WritePacket`
succeeds, the header silently carries the length mod `2^(8w)`, all `L`
payload bytes follow, and decoding the emitted header disagrees with the
actual payload length. -/
theorem writePacket_header_truncation (n : Nat) (hn : n = 1 ∨ n = 2 ∨ n = 4)
    (bo : ByteOrder) (payload : List Nat) (hL : 2 ^ (8 * n) ≤ payload.length) :
    (WritePacket ⟨0, n, bo⟩ { plan := [], written := [] } payload).2 = none ∧
    (WritePacket ⟨0, n, bo⟩ { plan := [], written := [] } payload).1.written =
      encodeHead n bo payload.length ++ payload ∧
    encodeHead n bo payload.length = encodeHead n bo (payload.length % 2 ^ (8 * n)) ∧
    decodeHead n bo (encodeHead n bo payload.length) ≠ (payload.length : Int) := by
  have hn' : n = 1 ∨ n = 2 ∨ n = 4 ∨ n = 8 := by rcases hn with rfl | rfl | rfl <;> simp
  have hM : ¬((0 : Int) > 0 ∧ (payload.length : Int) > 0) := by
    rintro ⟨h1, _⟩
    exact absurd h1 (lt_irrefl 0)
  have hw := WritePacket_ok ⟨0, n, bo⟩ payload hM
  have hmod : payload.length % 2 ^ (8 * n) < 2 ^ (8 * n) :=
    Nat.mod_lt _ (by positivity)
  have h63 : payload.length % 2 ^ (8 * n) < 2 ^ 63 := by
    rcases hn with rfl | rfl | rfl <;> omega
  have hde : decodeHead n bo (encodeHead n bo payload.length) =
      ((payload.length % 2 ^ (8 * n) : Nat) : Int) := by
    rw [← encodeHead_mod n hn' bo payload.length]
    exact decodeHead_encodeHead n hn' bo _ hmod h63
  refine ⟨by simp [hw], by simp [hw],
    (encodeHead_mod n hn' bo payload.length).symm, ?_⟩
  rw [hde]
  have hlt : payload.length % 2 ^ (8 * n) < payload.length := lt_of_lt_of_le hmod hL
  exact_mod_cast Nat.ne_of_lt hlt

/-- Claim C9: witness: width 1, 300-byte payload; the header byte is 300 mod 256
= 44 and decodes to 44 ≠ 300. -/
theorem writePacket_header_truncation_witness :
    (WritePacket ⟨0, 1, ByteOrder.big⟩ { plan := [], written := [] }
      (List.replicate 300 9)).2 = none ∧
    (WritePacket ⟨0, 1, ByteOrder.big⟩ { plan := [], written := [] }
      (List.replicate 300 9)).1.written =
      encodeHead 1 ByteOrder.big (List.replicate 300 9).length ++ List.replicate 300 9 ∧
    encodeHead 1 ByteOrder.big (List.replicate 300 9).length =
      encodeHead 1 ByteOrder.big ((List.replicate 300 9).length % 2 ^ (8 * 1)) ∧
    decodeHead 1 ByteOrder.big (encodeHead 1 ByteOrder.big (List.replicate 300 9).length) ≠
      ((List.replicate 300 9).length : Int) :=
  writePacket_header_truncation 1 (Or.inl rfl) ByteOrder.big (List.replicate 300 9)
    (by simp only [List.length_replicate]; norm_num)

/-- Claim C10: with header width 1 the configured byte order is irrelevant:
encoder, decoder, `WritePacket` and `ReadPacket` behave identically under
big- and little-endian configuration. -/
theorem width1_byteOrder_no_effect (M : Int) (wconn : WConn) (payload : List Nat)
    (rconn : RConn) (buffer : List Nat) :
    encodeHead 1 ByteOrder.big payload.length =
      encodeHead 1 ByteOrder.little payload.length ∧
    (∀ b : List Nat, decodeHead 1 ByteOrder.big b = decodeHead 1 ByteOrder.little b) ∧
    WritePacket ⟨M, 1, ByteOrder.big⟩ wconn payload =
      WritePacket ⟨M, 1, ByteOrder.little⟩ wconn payload ∧
    ReadPacket ⟨M, 1, ByteOrder.big⟩ rconn buffer =
      ReadPacket ⟨M, 1, ByteOrder.little⟩ rconn buffer := by
  have he : encodeHead 1 ByteOrder.big = encodeHead 1 ByteOrder.little := by
    funext v
    rfl
  have hd : decodeHead 1 ByteOrder.big = decodeHead 1 ByteOrder.little := by
    funext b
    simp [decodeHead]
  refine ⟨congrFun he payload.length, fun b => congrFun hd b, ?_, ?_⟩
  · unfold WritePacket
    simp only [he]
  · unfold ReadPacket
    dsimp only
    rcases h : readFull rconn 1 with ⟨c, res⟩
    cases res with
    | error e => rfl
    | ok head => rw [hd]
